import Mathlib

/-!
Verification of the Nabha-Vidya service worker (`sw.js`, v2.0 worker).

The worker is embedded shallowly:
* a `Response` is a status code plus a body, with `Response.ok` meaning a
  2xx status (as in the Fetch API);
* a cache partition is a partial map from a request identity (the URL
  path of a GET request) to a stored response;
* the outcome of the single network fetch a strategy may perform is an
  explicit `Except String Response` parameter (`Except.error` models a
  rejected fetch promise, `Except.ok` a resolved one, whether 2xx or not);
* each strategy returns the response outcome, the updated partition and
  the number of network fetches it performed.
-/

/-- A stored/transferred HTTP response snapshot: status code and body. -/
structure Response where
  status : Nat
  body : String
  deriving DecidableEq, Repr

/-- The Fetch API's `response.ok`: true exactly for 2xx statuses. -/
def Response.ok (r : Response) : Bool :=
  decide (200 ≤ r.status ∧ r.status < 300)

/-- A cache partition: a partial map from request identity (URL path) to a
stored response. -/
def Cache : Type := String → Option Response

/-- The `cache.put` operation: stores a snapshot, overwriting any prior
entry for the same key. -/
def cachePut (cache : Cache) (k : String) (r : Response) : Cache :=
  fun k2 => if k2 = k then some r else cache k2

/-- JavaScript `String.prototype.startsWith` on paths. -/
def strStartsWith (s pre : String) : Bool :=
  decide (pre.data <+: s.data)

/-- JavaScript suffix test (used for the `$`-anchored extension regex and
for `String.prototype.endsWith`). -/
def strEndsWith (s suf : String) : Bool :=
  decide (suf.data <:+ s.data)

/-- JavaScript `String.prototype.includes`: substring containment. -/
def strContains (s pat : String) : Bool :=
  decide (pat.data <:+: s.data)

/-- The extension alternatives of the regex
`\.(css|js|png|jpg|jpeg|gif|ico|svg|woff|woff2|ttf|eot)$` in
`isStaticAsset`. -/
def staticExtensions : List String :=
  ["css", "js", "png", "jpg", "jpeg", "gif", "ico", "svg",
   "woff", "woff2", "ttf", "eot"]

/-- `isStaticAsset` from the worker: the `$`-anchored regex matches exactly
when the path ends in a dot followed by one of the listed extensions; the
two further disjuncts are the literal comparisons of the source. -/
def isStaticAsset (p : String) : Bool :=
  staticExtensions.any (fun e => strEndsWith p ("." ++ e)) ||
  (p == "/") ||
  strEndsWith p ".html"

/-- `isDynamicAsset` from the worker. -/
def isDynamicAsset (p : String) : Bool :=
  strStartsWith p "/assets/videos/" ||
  strContains p "api" ||
  strContains p "user-content"

/-- The four request classifications of the strategy engine. -/
inductive Classification where
  | static
  | dynamic
  | api
  | default
  deriving DecidableEq, Repr

/-- The classification computed by `handleFetch`'s chain of guards, in
source order: `isStaticAsset`, then `isDynamicAsset`, then the
`/api/`-path check, then the default branch. -/
def classify (p : String) : Classification :=
  if isStaticAsset p then Classification.static
  else if isDynamicAsset p then Classification.dynamic
  else if strStartsWith p "/api/" then Classification.api
  else Classification.default

/-- The spec's static predicate: extension in the listed set, or the root
path, or an `.html` path. -/
def specIsStaticPred (p : String) : Bool :=
  staticExtensions.any (fun e => strEndsWith p ("." ++ e)) ||
  (p == "/") ||
  strEndsWith p ".html"

/-- The spec's dynamic predicate: the large-media prefix or the `api` /
`user-content` substrings. -/
def specIsDynamicPred (p : String) : Bool :=
  strStartsWith p "/assets/videos/" ||
  strContains p "api" ||
  strContains p "user-content"

/-- The spec's api predicate: an `/api/` path prefix. -/
def specIsApiPred (p : String) : Bool :=
  strStartsWith p "/api/"

/-- The spec's classification, expressed as the ordered table of
(predicate, classification) pairs evaluated first-match-wins. -/
def specStrategyTable : List ((String → Bool) × Classification) :=
  [(specIsStaticPred, Classification.static),
   (specIsDynamicPred, Classification.dynamic),
   (specIsApiPred, Classification.api)]

/-- First-match-wins evaluation of the spec's table, falling back to the
default classification when no predicate matches. -/
def specClassify (p : String) : Classification :=
  match specStrategyTable.find? (fun rule => rule.1 p) with
  | some rule => rule.2
  | none => Classification.default

/-- The outcome of running `cacheFirst` or `networkFirst`: the settled
result of the strategy's promise (`Except.error` models a rejection that
propagates to the caller), the partition after the call, and the number
of network fetches the call performed. -/
structure StratOut where
  result : Except String Response
  cache : Cache
  fetches : Nat

/-- `cacheFirst` from the worker: serve from the partition on a hit;
otherwise fetch once, store a copy when the response is `ok`, and return
the network response; a rejected fetch propagates. -/
def cacheFirst (net : Except String Response) (cache : Cache) (k : String) :
    StratOut :=
  match cache k with
  | some r => ⟨Except.ok r, cache, 0⟩
  | none =>
    match net with
    | Except.error e => ⟨Except.error e, cache, 1⟩
    | Except.ok r =>
      if r.ok then ⟨Except.ok r, cachePut cache k r, 1⟩
      else ⟨Except.ok r, cache, 1⟩

/-- `networkFirst` from the worker: fetch first, store a copy when the
response is `ok`, and return it; on a rejected fetch fall back to the
partition, rethrowing the error when the partition misses. -/
def networkFirst (net : Except String Response) (cache : Cache) (k : String) :
    StratOut :=
  match net with
  | Except.ok r =>
    if r.ok then ⟨Except.ok r, cachePut cache k r, 1⟩
    else ⟨Except.ok r, cache, 1⟩
  | Except.error e =>
    match cache k with
    | some c => ⟨Except.ok c, cache, 1⟩
    | none => ⟨Except.error e, cache, 1⟩

/-- The outcome of `staleWhileRevalidate`: the value the caller's promise
settles with, whether producing it required awaiting the background fetch
promise, and the partition once that background promise has settled.
The background promise carries a `catch` handler that logs and returns
`undefined`, so the caller-visible result is never a rejection; a resolved
`undefined` is modelled as `Except.ok none`. -/
structure SWROut where
  returned : Except String (Option Response)
  awaitedNetwork : Bool
  finalCache : Cache

/-- `staleWhileRevalidate` from the worker: serve the cached value at once
when present; the decoupled fetch stores `ok` responses into the
partition; with no cached value the caller awaits the background promise,
which resolves with the response on success and with `undefined` (its
rejection swallowed by the attached `catch`) on failure. -/
def staleWhileRevalidate (net : Except String Response) (cache : Cache)
    (k : String) : SWROut :=
  let finalCache : Cache :=
    match net with
    | Except.ok r => if r.ok then cachePut cache k r else cache
    | Except.error _ => cache
  match cache k with
  | some c => ⟨Except.ok (some c), false, finalCache⟩
  | none =>
    match net with
    | Except.ok r => ⟨Except.ok (some r), true, finalCache⟩
    | Except.error _ => ⟨Except.ok none, true, finalCache⟩

/-- The two partitions the v2.0 worker uses. -/
structure Caches where
  static : Cache
  dynamic : Cache

/-- An intercepted GET request: its URL path and whether its mode is
`navigate`. -/
structure Request where
  path : String
  navigate : Bool

/-- `caches.match` across every partition, searched in creation order
(static partition first, then dynamic). -/
def anyCacheMatch (cs : Caches) (k : String) : Option Response :=
  match cs.static k with
  | some r => some r
  | none => cs.dynamic k

/-- The synthesized last-resort offline response of
`handleOfflineFallback`: status 503 with the fixed JSON body. -/
def offlineResponse : Response :=
  ⟨503, "\x7b\"error\":\"Offline\",\"message\":\"This content is not available offline\"\x7d"⟩

/-- `handleOfflineFallback` from the worker: for a navigation request,
the cached `/index.html` from the static partition when present;
otherwise a `caches.match` across all partitions; otherwise the
synthesized 503 offline response. -/
def handleOfflineFallback (cs : Caches) (req : Request) : Response :=
  match (if req.navigate then cs.static "/index.html" else none) with
  | some f => f
  | none =>
    match anyCacheMatch cs req.path with
    | some c => c
    | none => offlineResponse

/-- `handleFetch` from the worker: dispatch on the classification guards
in source order; a rejection from a strategy is caught and answered by
`handleOfflineFallback`. The first component is the value the handler's
promise resolves with (`none` models resolving with `undefined`, which
the stale-while-revalidate branch could produce); the second is the pair
of partitions afterwards. -/
def handleFetch (net : Except String Response) (cs : Caches) (req : Request) :
    Option Response × Caches :=
  match classify req.path with
  | Classification.static =>
    let o := cacheFirst net cs.static req.path
    let cs1 : Caches := ⟨o.cache, cs.dynamic⟩
    match o.result with
    | Except.ok r => (some r, cs1)
    | Except.error _ => (some (handleOfflineFallback cs1 req), cs1)
  | Classification.dynamic =>
    let o := networkFirst net cs.dynamic req.path
    let cs1 : Caches := ⟨cs.static, o.cache⟩
    match o.result with
    | Except.ok r => (some r, cs1)
    | Except.error _ => (some (handleOfflineFallback cs1 req), cs1)
  | Classification.api =>
    let o := staleWhileRevalidate net cs.dynamic req.path
    let cs1 : Caches := ⟨cs.static, o.finalCache⟩
    match o.returned with
    | Except.ok v => (v, cs1)
    | Except.error _ => (some (handleOfflineFallback cs1 req), cs1)
  | Classification.default =>
    let o := networkFirst net cs.dynamic req.path
    let cs1 : Caches := ⟨cs.static, o.cache⟩
    match o.result with
    | Except.ok r => (some r, cs1)
    | Except.error _ => (some (handleOfflineFallback cs1 req), cs1)

/-- The outcome of one `safeCacheAdd` call: the partition afterwards and
the boolean the call resolves with (`true` when the asset was fetched
with an `ok` status and stored, `false` when the fetch rejected or the
status was not `ok`; the internal `throw` is caught inside the helper, so
the call itself never rejects). -/
structure PreloadStep where
  cache : Cache
  added : Bool

/-- `safeCacheAdd` from the worker, with the per-URL fetch outcome given
by `netf`. -/
def safeCacheAdd (netf : String → Except String Response) (cache : Cache)
    (url : String) : PreloadStep :=
  match netf url with
  | Except.error _ => ⟨cache, false⟩
  | Except.ok r =>
    if r.ok then ⟨cachePut cache url r, true⟩
    else ⟨cache, false⟩

/-- A settled promise as reported by `Promise.allSettled`: fulfilled with
a value, or rejected. -/
inductive SettledOutcome where
  | fulfilled (value : Bool)
  | rejected
  deriving DecidableEq, Repr

/-- The install handler's preload pass: one `safeCacheAdd` per manifest
entry, collected with `Promise.allSettled`. Returns the list of settled
outcomes in manifest order and the partition afterwards. -/
def installCacheStatic (netf : String → Except String Response)
    (cache : Cache) (assets : List String) : List SettledOutcome × Cache :=
  match assets with
  | [] => ([], cache)
  | a :: rest =>
    let step := safeCacheAdd netf cache a
    let tail := installCacheStatic netf step.cache rest
    (SettledOutcome.fulfilled step.added :: tail.1, tail.2)

/-- The count the install handler reports: the number of settled results
whose status is `fulfilled` (the source's
`results.filter(r => r.status === 'fulfilled').length`). -/
def countFulfilled (results : List SettledOutcome) : Nat :=
  (results.filter (fun r =>
    match r with
    | SettledOutcome.fulfilled _ => true
    | SettledOutcome.rejected => false)).length

/-- The number of manifest entries that were actually cached: settled
results that are `fulfilled` with value `true`. This is the {succeeded}
count the spec's preload contract describes. -/
def countSucceeded (results : List SettledOutcome) : Nat :=
  (results.filter (fun r =>
    match r with
    | SettledOutcome.fulfilled v => v
    | SettledOutcome.rejected => false)).length

/-- The v2.0 worker's static partition name. -/
def STATIC_CACHE : String := "nabha-static-v2.0"

/-- The v2.0 worker's dynamic partition name. -/
def DYNAMIC_CACHE : String := "nabha-dynamic-v2.0"

/-- The current version's partition-name set. -/
def currentCaches : List String := [STATIC_CACHE, DYNAMIC_CACHE]

/-- The activate handler's deletion filter: a partition name is deleted
exactly when it differs from both current names and starts with the
application prefix `nabha-`. -/
def shouldDeleteCache (n : String) : Bool :=
  (!(n == STATIC_CACHE)) && (!(n == DYNAMIC_CACHE)) &&
  strStartsWith n "nabha-"

/-- The names the activate handler deletes, out of the enumerated
existing partition names. -/
def activateCleanupDeleted (names : List String) : List String :=
  names.filter shouldDeleteCache

/-- The names that survive the activate handler's cleanup. -/
def activateCleanupSurvivors (names : List String) : List String :=
  names.filter (fun n => !(shouldDeleteCache n))

/-- A deferred feedback submission: an id plus its payload. -/
structure Submission where
  id : Nat
  payload : String
  deriving DecidableEq, Repr

/-- Modelled from the spec: `removePendingSubmission` is a placeholder in
the source (`// Implement based on your storage solution`); per spec
§4.5, `dequeue(id)` removes the submission with that id from the ordered
queue and is a no-op when the id is absent. -/
def removePendingSubmission (queue : List Submission) (i : Nat) :
    List Submission :=
  queue.filter (fun s => !(s.id == i))

/-- `syncFeedbackSubmissions` from the worker: iterate over the pending
submissions (the snapshot returned by `getPendingSubmissions`, which per
spec §4.5 lists the queue in insertion order) and, for each, attempt
delivery; on success remove it from the queue, on failure (a rejected
`submitFeedback` fetch, `deliver s = false`) leave it queued and
continue. Returns the queue after the sync pass. -/
def syncFeedbackSubmissions (deliver : Submission → Bool)
    (queue : List Submission) : List Submission :=
  queue.foldl
    (fun acc s =>
      if deliver s then removePendingSubmission acc s.id else acc)
    queue

/-- The empty partition, used to instantiate theorems at concrete states. -/
def emptyCache : Cache := fun _ => none

/-- An entry of a partition read back as an `ok` check: `true` exactly
when the slot holds a response with a 2xx status. -/
def entryOk (o : Option Response) : Bool :=
  match o with
  | some r => r.ok
  | none => false

theorem api_prefix_dynamic (p : String)
    (h : strStartsWith p "/api/" = true) : isDynamicAsset p = true := by
  have hpre : ("/api/").data <+: p.data := of_decide_eq_true h
  have hinf : ("api").data <:+: ("/api/").data := by decide
  have h2 := List.IsPrefix.isInfix hpre
  have hc : strContains p "api" = true :=
    decide_eq_true (List.IsInfix.trans hinf h2)
  unfold isDynamicAsset
  simp [hc]

theorem classify_ne_api (p : String) : classify p ≠ Classification.api := by
  cases h1 : isStaticAsset p
  · cases h2 : isDynamicAsset p
    · cases h3 : strStartsWith p "/api/"
      · simp [classify, h1, h2, h3]
      · exact absurd (api_prefix_dynamic p h3) (by simp [h2])
    · simp [classify, h1, h2]
  · simp [classify, h1]

/-- C1: for every intercepted GET request the classification is a pure
function of the URL path, computed first-match-wins in the fixed
precedence order static, dynamic, api, default, with the static, dynamic
and api predicates as the claim states them: the guard chain of
`handleFetch` agrees with the spec's ordered predicate table on every
path. -/
theorem classify_matches_spec_table (p : String) :
    classify p = specClassify p := by
  have e1 : specIsStaticPred p = isStaticAsset p := rfl
  have e2 : specIsDynamicPred p = isDynamicAsset p := rfl
  have e3 : specIsApiPred p = strStartsWith p "/api/" := rfl
  cases h1 : isStaticAsset p <;> cases h2 : isDynamicAsset p <;>
    cases h3 : strStartsWith p "/api/" <;>
      simp [classify, specClassify, specStrategyTable, List.find?,
        e1, e2, e3, h1, h2, h3]

/-- C2: cache-first: on a hit the stored entry is returned, no network
fetch occurs and the partition is unchanged; on a miss exactly one fetch
occurs, and when the response is `ok` a copy is stored under the request
identity before being returned, so a subsequent call is a hit that needs
no network fetch. -/
theorem cacheFirst_spec (net : Except String Response) (cache : Cache)
    (k : String) :
    (∀ r, cache k = some r →
      (cacheFirst net cache k).result = Except.ok r ∧
      (cacheFirst net cache k).fetches = 0 ∧
      (cacheFirst net cache k).cache = cache) ∧
    (cache k = none →
      (cacheFirst net cache k).fetches = 1 ∧
      ∀ r, net = Except.ok r → r.ok = true →
        (cacheFirst net cache k).result = Except.ok r ∧
        (cacheFirst net cache k).cache k = some r ∧
        ∀ net2,
          (cacheFirst net2 ((cacheFirst net cache k).cache) k).result =
            Except.ok r ∧
          (cacheFirst net2 ((cacheFirst net cache k).cache) k).fetches = 0) := by
  constructor
  · intro r hr
    simp [cacheFirst, hr]
  · intro hk
    constructor
    · cases net with
      | error e => simp [cacheFirst, hk]
      | ok r => cases hok : r.ok <;> simp [cacheFirst, hk, hok]
    · rintro r rfl hok
      refine ⟨?_, ?_, ?_⟩ <;>
        simp [cacheFirst, hk, hok, cachePut]

/-- Witness for C2 at a concrete miss followed by a hit. -/
theorem cacheFirst_spec_witness :
    emptyCache "/styles.css" = none ∧
    (cacheFirst (Except.ok ⟨200, "x"⟩) emptyCache "/styles.css").cache
      "/styles.css" = some ⟨200, "x"⟩ := by
  refine ⟨rfl, ?_⟩
  exact (((cacheFirst_spec (Except.ok ⟨200, "x"⟩) emptyCache
    "/styles.css").2 rfl).2 ⟨200, "x"⟩ rfl (by decide)).2.1

/-- C3: network-first: the network is tried first; an `ok` response is
stored under the request identity (overwriting any prior entry) and
returned; on a rejected fetch the previously cached value is returned
when one exists and the failure propagates otherwise; a rejected fetch or
a non-`ok` response never changes the partition. -/
theorem networkFirst_spec (net : Except String Response) (cache : Cache)
    (k : String) :
    (∀ r, net = Except.ok r → r.ok = true →
      (networkFirst net cache k).result = Except.ok r ∧
      (networkFirst net cache k).cache k = some r ∧
      ∀ k2, k2 ≠ k → (networkFirst net cache k).cache k2 = cache k2) ∧
    (∀ e, net = Except.error e →
      (networkFirst net cache k).cache = cache ∧
      (∀ c, cache k = some c →
        (networkFirst net cache k).result = Except.ok c) ∧
      (cache k = none →
        (networkFirst net cache k).result = Except.error e)) ∧
    (∀ r, net = Except.ok r → r.ok = false →
      (networkFirst net cache k).cache = cache ∧
      (networkFirst net cache k).result = Except.ok r) := by
  refine ⟨?_, ?_, ?_⟩
  · rintro r rfl hok
    refine ⟨?_, ?_, ?_⟩
    · simp [networkFirst, hok]
    · simp [networkFirst, hok, cachePut]
    · intro k2 hk2
      simp [networkFirst, hok, cachePut, hk2]
  · rintro e rfl
    refine ⟨?_, ?_, ?_⟩
    · cases hc : cache k <;> simp [networkFirst, hc]
    · intro c hc
      simp [networkFirst, hc]
    · intro hc
      simp [networkFirst, hc]
  · rintro r rfl hok
    constructor <;> simp [networkFirst, hok]

/-- Witness for C3 at a concrete rejected fetch over a warm partition. -/
theorem networkFirst_spec_witness :
    (cachePut emptyCache "/x" ⟨200, "old"⟩) "/x" = some ⟨200, "old"⟩ ∧
    (networkFirst (Except.error "down") (cachePut emptyCache "/x" ⟨200, "old"⟩)
      "/x").result = Except.ok ⟨200, "old"⟩ := by
  refine ⟨by decide, ?_⟩
  exact ((networkFirst_spec (Except.error "down")
    (cachePut emptyCache "/x" ⟨200, "old"⟩) "/x").2.1 "down" rfl).2.1
    ⟨200, "old"⟩ (by decide)

/-- C4 as written is false on the code: with no cached entry and a
rejected fetch, the caller does not receive the failure — the `catch`
attached to the background promise swallows the rejection, so the
caller's promise resolves with `undefined` (`Except.ok none`), not with
the network failure. -/
theorem swr_no_cache_failure_counterexample :
    emptyCache "/api/data" = none ∧
    (staleWhileRevalidate (Except.error "network down") emptyCache
      "/api/data").returned = Except.ok none ∧
    (staleWhileRevalidate (Except.error "network down") emptyCache
      "/api/data").returned ≠ Except.error "network down" :=
  ⟨rfl, rfl, fun h => Except.noConfusion h⟩

/-- C4 amended: stale-while-revalidate returns an existing cached value
immediately without awaiting the network, and the partition reflects the
network's value once the decoupled background fetch resolves with an `ok`
response; with no cached value the caller receives the network response
on success, while on network failure the background `catch` swallows the
rejection and the caller's promise resolves with `undefined` rather than
the failure; a failed background fetch leaves the partition unchanged. -/
theorem swr_spec_amended (net : Except String Response) (cache : Cache)
    (k : String) :
    (∀ c, cache k = some c →
      (staleWhileRevalidate net cache k).returned = Except.ok (some c) ∧
      (staleWhileRevalidate net cache k).awaitedNetwork = false) ∧
    (∀ r, net = Except.ok r → r.ok = true →
      (staleWhileRevalidate net cache k).finalCache k = some r) ∧
    (cache k = none → ∀ r, net = Except.ok r →
      (staleWhileRevalidate net cache k).returned = Except.ok (some r)) ∧
    (cache k = none → ∀ e, net = Except.error e →
      (staleWhileRevalidate net cache k).returned = Except.ok none) ∧
    (∀ e, net = Except.error e →
      (staleWhileRevalidate net cache k).finalCache = cache) := by
  refine ⟨?_, ?_, ?_, ?_, ?_⟩
  · intro c hc
    constructor <;> simp [staleWhileRevalidate, hc]
  · rintro r rfl hok
    cases hc : cache k <;> simp [staleWhileRevalidate, hc, hok, cachePut]
  · rintro hc r rfl
    simp [staleWhileRevalidate, hc]
  · rintro hc e rfl
    simp [staleWhileRevalidate, hc]
  · rintro e rfl
    cases hc : cache k <;> simp [staleWhileRevalidate, hc]

/-- Witness for the amended C4 at a concrete warm partition. -/
theorem swr_spec_amended_witness :
    (cachePut emptyCache "/api/d" ⟨200, "old"⟩) "/api/d" = some ⟨200, "old"⟩ ∧
    (staleWhileRevalidate (Except.ok ⟨200, "new"⟩)
      (cachePut emptyCache "/api/d" ⟨200, "old"⟩) "/api/d").returned =
      Except.ok (some ⟨200, "old"⟩) ∧
    (staleWhileRevalidate (Except.ok ⟨200, "new"⟩)
      (cachePut emptyCache "/api/d" ⟨200, "old"⟩) "/api/d").finalCache
      "/api/d" = some ⟨200, "new"⟩ := by
  refine ⟨by decide, ?_, ?_⟩
  · exact ((swr_spec_amended (Except.ok ⟨200, "new"⟩)
      (cachePut emptyCache "/api/d" ⟨200, "old"⟩) "/api/d").1
      ⟨200, "old"⟩ (by decide)).1
  · exact (swr_spec_amended (Except.ok ⟨200, "new"⟩)
      (cachePut emptyCache "/api/d" ⟨200, "old"⟩) "/api/d").2.1
      ⟨200, "new"⟩ rfl (by decide)

/-- C5: for every intercepted GET request, `handleFetch` resolves to a
response and never rejects: every branch yields `some` response; when the
fetch rejects and neither partition holds the identity, the answer is the
offline fallback; the fallback serves the cached root document to
navigation requests when present, else a match across all partitions,
else the synthesized 503 response with the JSON offline body, and it is a
total function that never raises. -/
theorem handleFetch_never_rejects (net : Except String Response)
    (cs : Caches) (req : Request) :
    (∃ r, (handleFetch net cs req).1 = some r) ∧
    (∀ e, net = Except.error e → cs.static req.path = none →
      cs.dynamic req.path = none →
      (handleFetch net cs req).1 = some (handleOfflineFallback cs req)) ∧
    (∀ f, req.navigate = true → cs.static "/index.html" = some f →
      handleOfflineFallback cs req = f) ∧
    (req.navigate = false →
      handleOfflineFallback cs req =
        (anyCacheMatch cs req.path).getD offlineResponse) ∧
    offlineResponse.status = 503 ∧
    offlineResponse.body =
      "\x7b\"error\":\"Offline\",\"message\":\"This content is not available offline\"\x7d" := by
  refine ⟨?_, ?_, ?_, ?_, rfl, rfl⟩
  · cases hc : classify req.path with
    | static =>
      cases hres : (cacheFirst net cs.static req.path).result with
      | ok r => exact ⟨r, by simp [handleFetch, hc, hres]⟩
      | error e =>
        exact ⟨handleOfflineFallback
          ⟨(cacheFirst net cs.static req.path).cache, cs.dynamic⟩ req,
          by simp [handleFetch, hc, hres]⟩
    | dynamic =>
      cases hres : (networkFirst net cs.dynamic req.path).result with
      | ok r => exact ⟨r, by simp [handleFetch, hc, hres]⟩
      | error e =>
        exact ⟨handleOfflineFallback
          ⟨cs.static, (networkFirst net cs.dynamic req.path).cache⟩ req,
          by simp [handleFetch, hc, hres]⟩
    | api => exact absurd hc (classify_ne_api req.path)
    | default =>
      cases hres : (networkFirst net cs.dynamic req.path).result with
      | ok r => exact ⟨r, by simp [handleFetch, hc, hres]⟩
      | error e =>
        exact ⟨handleOfflineFallback
          ⟨cs.static, (networkFirst net cs.dynamic req.path).cache⟩ req,
          by simp [handleFetch, hc, hres]⟩
  · rintro e rfl hs hd
    cases hc : classify req.path with
    | static => simp [handleFetch, hc, cacheFirst, hs]
    | dynamic => simp [handleFetch, hc, networkFirst, hd]
    | api => exact absurd hc (classify_ne_api req.path)
    | default => simp [handleFetch, hc, networkFirst, hd]
  · intro f hn hf
    simp [handleOfflineFallback, hn, hf]
  · intro hn
    cases ham : anyCacheMatch cs req.path <;>
      simp [handleOfflineFallback, hn, ham]

/-- Witness for C5: the spec's scenario of a dynamic request with the
network down and cold partitions, answered by the synthesized 503. -/
theorem handleFetch_never_rejects_witness :
    (handleFetch (Except.error "down") ⟨emptyCache, emptyCache⟩
      ⟨"/assets/videos/x.mp4", false⟩).1 =
      some (handleOfflineFallback ⟨emptyCache, emptyCache⟩
        ⟨"/assets/videos/x.mp4", false⟩) ∧
    handleOfflineFallback ⟨emptyCache, emptyCache⟩
      ⟨"/assets/videos/x.mp4", false⟩ = offlineResponse := by
  constructor
  · exact (handleFetch_never_rejects (Except.error "down")
      ⟨emptyCache, emptyCache⟩ ⟨"/assets/videos/x.mp4", false⟩).2.1
      "down" rfl rfl rfl
  · rfl

/-- C6: after an activation signal, exactly those existing partitions
whose name is outside the current set and begins with the `nabha-`
application prefix are deleted; any foreign-prefixed partition
survives. -/
theorem activate_cleanup_spec (names : List String) (n : String) :
    (n ∈ activateCleanupDeleted names ↔
      n ∈ names ∧ n ∉ currentCaches ∧ strStartsWith n "nabha-" = true) ∧
    (strStartsWith n "nabha-" = false → n ∈ names →
      n ∈ activateCleanupSurvivors names) := by
  constructor
  · constructor
    · intro h
      obtain ⟨hn, hd⟩ := List.mem_filter.mp h
      unfold shouldDeleteCache at hd
      simp only [Bool.and_eq_true, Bool.not_eq_true',
        beq_eq_false_iff_ne] at hd
      refine ⟨hn, ?_, hd.2⟩
      simp only [currentCaches, List.mem_cons, List.not_mem_nil, or_false,
        not_or]
      exact ⟨hd.1.1, hd.1.2⟩
    · rintro ⟨hn, hnc, hpre⟩
      simp only [currentCaches, List.mem_cons, List.not_mem_nil, or_false,
        not_or] at hnc
      apply List.mem_filter.mpr
      refine ⟨hn, ?_⟩
      unfold shouldDeleteCache
      simp [hpre, hnc.1, hnc.2]
  · intro hpre hn
    apply List.mem_filter.mpr
    refine ⟨hn, ?_⟩
    simp [shouldDeleteCache, hpre]

/-- Witness for C6: a foreign-prefixed partition survives a cleanup that
deletes a stale `nabha-` partition. -/
theorem activate_cleanup_spec_witness :
    strStartsWith "other-app-cache" "nabha-" = false ∧
    "other-app-cache" ∈ activateCleanupSurvivors
      ["nabha-static-v2.0", "nabha-old-v1.0", "other-app-cache"] := by
  refine ⟨by decide, ?_⟩
  exact (activate_cleanup_spec
    ["nabha-static-v2.0", "nabha-old-v1.0", "other-app-cache"]
    "other-app-cache").2 (by decide) (by decide)

/-- The fetch outcomes of the C7 scenario: manifest entry `/a.css`
resolves with a 200 response, `/b.css` rejects. -/
def netAB : String → Except String Response := fun u =>
  if u = "/a.css" then Except.ok ⟨200, "A"⟩ else Except.error "unreachable"

/-- C7 against the code: preloading the manifest `[/a.css, /b.css]` where
the first fetch succeeds and the second rejects does complete without
aborting, caches `/a.css` and not `/b.css`, and the actual success count
is 1 — but the count the install handler reports is 2, because
`safeCacheAdd` never rejects, so every settled result is `fulfilled` and
the handler's `filter(r => r.status === 'fulfilled').length` always
equals the manifest length. -/
theorem install_preload_count_bug :
    countFulfilled (installCacheStatic netAB emptyCache
      ["/a.css", "/b.css"]).1 = 2 ∧
    countSucceeded (installCacheStatic netAB emptyCache
      ["/a.css", "/b.css"]).1 = 1 ∧
    (installCacheStatic netAB emptyCache ["/a.css", "/b.css"]).2 "/a.css" =
      some ⟨200, "A"⟩ ∧
    (installCacheStatic netAB emptyCache ["/a.css", "/b.css"]).2 "/b.css" =
      none ∧
    ∀ (netf : String → Except String Response) (cache : Cache)
      (assets : List String),
      countFulfilled (installCacheStatic netf cache assets).1 =
        assets.length := by
  refine ⟨by decide, by decide, by decide, by decide, ?_⟩
  intro netf cache assets
  induction assets generalizing cache with
  | nil => simp [installCacheStatic, countFulfilled]
  | cons a rest ih =>
    simp only [installCacheStatic, countFulfilled, List.filter,
      List.length_cons]
    have := ih (safeCacheAdd netf cache a).cache
    simp only [countFulfilled] at this
    simp [this]

theorem sync_foldl_filter (deliver : Submission → Bool) :
    ∀ (l acc : List Submission),
      List.foldl
        (fun acc s =>
          if deliver s then removePendingSubmission acc s.id else acc)
        acc l =
      acc.filter
        (fun t => l.all (fun s => !(deliver s && (s.id == t.id)))) := by
  intro l
  induction l with
  | nil =>
    intro acc
    simp
  | cons s rest ih =>
    intro acc
    simp only [List.foldl_cons]
    cases hd : deliver s
    · rw [if_neg (by simp [hd])]
      rw [ih]
      apply List.filter_congr
      intro t _
      simp [List.all_cons, hd]
    · rw [if_pos (by simp [hd])]
      rw [ih]
      unfold removePendingSubmission
      rw [List.filter_filter]
      apply List.filter_congr
      intro t _
      cases hbe : (t.id == s.id)
      · have h1 : t.id ≠ s.id := by simpa using hbe
        have hbe2 : (s.id == t.id) = false := by
          simpa using fun h : s.id = t.id => h1 h.symm
        simp [List.all_cons, hd, hbe, hbe2]
      · have h1 : t.id = s.id := by simpa using hbe
        have hbe2 : (s.id == t.id) = true := by simp [h1]
        simp [List.all_cons, hd, hbe, hbe2]

/-- C8: during one sync trigger the pending submissions are processed in
insertion order; each delivered submission is removed from the queue and
a delivery failure leaves its submission queued without blocking or
losing the others: when ids are distinct, the queue afterwards is exactly
the original queue restricted to the submissions whose delivery failed,
in their original relative order. -/
theorem sync_queue_spec (deliver : Submission → Bool)
    (queue : List Submission)
    (hids : ∀ s ∈ queue, ∀ t ∈ queue, s.id = t.id → s = t) :
    syncFeedbackSubmissions deliver queue =
      queue.filter (fun s => !(deliver s)) := by
  unfold syncFeedbackSubmissions
  rw [sync_foldl_filter]
  apply List.filter_congr
  intro t ht
  cases hd : deliver t
  · simp only [Bool.not_false]
    rw [List.all_eq_true]
    intro s hs
    cases hds : deliver s
    · simp [hds]
    · simp only [hds, Bool.true_and, Bool.not_eq_true']
      by_contra hbe
      have hbe' : (s.id == t.id) = true := by
        cases h : (s.id == t.id)
        · exact absurd h hbe
        · rfl
      have heq : s.id = t.id := by simpa using hbe'
      have : s = t := hids s hs t ht heq
      rw [this] at hds
      rw [hds] at hd
      exact Bool.noConfusion hd
  · simp only [Bool.not_true]
    cases hall : queue.all (fun s => !(deliver s && (s.id == t.id)))
    · rfl
    · exfalso
      have := (List.all_eq_true.mp hall) t ht
      simp [hd] at this

/-- Witness for C8: the spec's scenario — queue `[1, 2, 3]` where only
submission 2 fails to deliver leaves exactly `[2]` queued. -/
theorem sync_queue_spec_witness :
    syncFeedbackSubmissions (fun s => !(s.id == 2))
      [⟨1, "a"⟩, ⟨2, "b"⟩, ⟨3, "c"⟩] = [⟨2, "b"⟩] := by
  rw [sync_queue_spec (fun s => !(s.id == 2))
    [⟨1, "a"⟩, ⟨2, "b"⟩, ⟨3, "c"⟩] (by decide)]
  decide

/-- C9: every path with the `/api/` prefix contains `api` as a substring,
so `isDynamicAsset` accepts it; consequently no path ever classifies as
`api`, the stale-while-revalidate branch of `handleFetch` is dead code,
and every `/api/`-prefixed path that is not static-classified is
classified dynamic and thus served by `networkFirst`. -/
theorem api_paths_never_swr :
    (∀ p, strStartsWith p "/api/" = true → isDynamicAsset p = true) ∧
    (∀ p, classify p ≠ Classification.api) ∧
    (∀ p, strStartsWith p "/api/" = true → isStaticAsset p = false →
      classify p = Classification.dynamic) := by
  refine ⟨api_prefix_dynamic, classify_ne_api, ?_⟩
  intro p h hs
  simp [classify, hs, api_prefix_dynamic p h]

/-- Witness for C9 on a concrete `/api/` path. -/
theorem api_paths_never_swr_witness :
    strStartsWith "/api/feedback" "/api/" = true ∧
    isDynamicAsset "/api/feedback" = true ∧
    classify "/api/feedback" = Classification.dynamic := by
  refine ⟨by decide, api_paths_never_swr.1 "/api/feedback" (by decide),
    api_paths_never_swr.2.2 "/api/feedback" (by decide) (by decide)⟩

theorem cachePut_change (cache : Cache) (k : String) (r : Response)
    (k2 : String) (h : cachePut cache k r k2 ≠ cache k2) :
    cachePut cache k r k2 = some r := by
  unfold cachePut at *
  by_cases hk : k2 = k
  · simp [hk]
  · simp [hk] at h

/-- C10: every entry any of the worker's write paths stores into a
partition is an `ok` (2xx) response: whenever `safeCacheAdd`,
`cacheFirst`, `networkFirst` or the stale-while-revalidate background
update changes a partition slot, the slot afterwards holds a response
with `ok` status. -/
theorem cache_writes_are_ok (net : Except String Response)
    (netf : String → Except String Response) (cache : Cache)
    (k k2 url : String) :
    ((cacheFirst net cache k).cache k2 ≠ cache k2 →
      entryOk ((cacheFirst net cache k).cache k2) = true) ∧
    ((networkFirst net cache k).cache k2 ≠ cache k2 →
      entryOk ((networkFirst net cache k).cache k2) = true) ∧
    ((staleWhileRevalidate net cache k).finalCache k2 ≠ cache k2 →
      entryOk ((staleWhileRevalidate net cache k).finalCache k2) = true) ∧
    ((safeCacheAdd netf cache url).cache k2 ≠ cache k2 →
      entryOk ((safeCacheAdd netf cache url).cache k2) = true) := by
  refine ⟨?_, ?_, ?_, ?_⟩
  · intro h
    cases hc : cache k with
    | some r => rw [show (cacheFirst net cache k).cache = cache from
        by simp [cacheFirst, hc]] at h; exact absurd rfl h
    | none =>
      cases net with
      | error e =>
        have hcc : (cacheFirst (Except.error e) cache k).cache = cache := by
          simp [cacheFirst, hc]
        rw [hcc] at h; exact absurd rfl h
      | ok r =>
        cases hok : r.ok
        · have hcc : (cacheFirst (Except.ok r) cache k).cache = cache := by
            simp [cacheFirst, hc, hok]
          rw [hcc] at h; exact absurd rfl h
        · have hcc : (cacheFirst (Except.ok r) cache k).cache =
              cachePut cache k r := by
            simp [cacheFirst, hc, hok]
          rw [hcc] at h ⊢
          rw [cachePut_change cache k r k2 h]
          simpa [entryOk] using hok
  · intro h
    cases net with
    | error e =>
      have hcc : (networkFirst (Except.error e) cache k).cache = cache := by
        cases hc : cache k <;> simp [networkFirst, hc]
      rw [hcc] at h; exact absurd rfl h
    | ok r =>
      cases hok : r.ok
      · have hcc : (networkFirst (Except.ok r) cache k).cache = cache := by
          simp [networkFirst, hok]
        rw [hcc] at h; exact absurd rfl h
      · have hcc : (networkFirst (Except.ok r) cache k).cache =
            cachePut cache k r := by
          simp [networkFirst, hok]
        rw [hcc] at h ⊢
        rw [cachePut_change cache k r k2 h]
        simpa [entryOk] using hok
  · intro h
    cases net with
    | error e =>
      have hcc :
          (staleWhileRevalidate (Except.error e) cache k).finalCache =
            cache := by
        cases hc : cache k <;> simp [staleWhileRevalidate, hc]
      rw [hcc] at h; exact absurd rfl h
    | ok r =>
      cases hok : r.ok
      · have hcc :
            (staleWhileRevalidate (Except.ok r) cache k).finalCache =
              cache := by
          cases hc : cache k <;> simp [staleWhileRevalidate, hc, hok]
        rw [hcc] at h; exact absurd rfl h
      · have hcc :
            (staleWhileRevalidate (Except.ok r) cache k).finalCache =
              cachePut cache k r := by
          cases hc : cache k <;> simp [staleWhileRevalidate, hc, hok]
        rw [hcc] at h ⊢
        rw [cachePut_change cache k r k2 h]
        simpa [entryOk] using hok
  · intro h
    cases hu : netf url with
    | error e =>
      have hcc : (safeCacheAdd netf cache url).cache = cache := by
        simp [safeCacheAdd, hu]
      rw [hcc] at h; exact absurd rfl h
    | ok r =>
      cases hok : r.ok
      · have hcc : (safeCacheAdd netf cache url).cache = cache := by
          simp [safeCacheAdd, hu, hok]
        rw [hcc] at h; exact absurd rfl h
      · have hcc : (safeCacheAdd netf cache url).cache =
            cachePut cache url r := by
          simp [safeCacheAdd, hu, hok]
        rw [hcc] at h ⊢
        rw [cachePut_change cache url r k2 h]
        simpa [entryOk] using hok

/-- Witness for C10 at a concrete write performed by `cacheFirst`. -/
theorem cache_writes_are_ok_witness :
    (cacheFirst (Except.ok ⟨200, "x"⟩) emptyCache "/a.css").cache "/a.css" ≠
      emptyCache "/a.css" ∧
    entryOk ((cacheFirst (Except.ok ⟨200, "x"⟩) emptyCache "/a.css").cache
      "/a.css") = true := by
  refine ⟨by decide, ?_⟩
  exact (cache_writes_are_ok (Except.ok ⟨200, "x"⟩)
    (fun _ => Except.error "e") emptyCache "/a.css" "/a.css" "/u").1
    (by decide)
